import Mathlib

/-!
Shallow embedding of the not-redis server (storage engine, stream engine,
wire codec, command parser, dispatcher and replication manager) together
with theorems settling the specification claims C1 through C10.

Machine integers are modelled as `Nat` (u16/u64/usize/u128) or `Int` (i64)
with explicit range checks where the Rust code checks them; fallible Rust
functions returning `Result` are modelled with `Except String`.  Background
deletion tasks (tokio `JoinHandle`s) are modelled by abstract task
identifiers: an operation reports the identifiers it aborted and the
`(identifier, delay)` pairs it spawned.
-/

namespace NotRedis

/-- Error text from src/errors.rs `wrong_type_str`. -/
def wrong_type_str : String :=
  "WRONGTYPE Operation against a key holding the wrong kind of value"

/-- Error text from src/errors.rs `not_an_integer`. -/
def not_an_integer : String := "ERR value is not an integer or out of range"

/-! ## Wire encoding (src/encoding/strings.rs, src/encoding/array.rs) -/

/-- src/encoding/strings.rs `bulk_string`.  Rust `str::len` is the UTF-8
byte length. -/
def bulk_string (s : String) : String :=
  "$" ++ (toString s.utf8ByteSize ++ ("\r\n" ++ (s ++ "\r\n")))

/-- src/encoding/strings.rs `simple_string`. -/
def simple_string (s : String) : String := "+" ++ (s ++ "\r\n")

/-- src/encoding/strings.rs `okay_string`. -/
def okay_string : String := simple_string "OK"

/-- src/encoding/strings.rs `empty_string` (the null bulk reply). -/
def empty_string : String := "$-1\r\n"

/-- src/encoding/strings.rs `error_string`. -/
def error_string (s : String) : String := "-" ++ (s ++ "\r\n")

/-- src/encoding/array.rs `encode_array_length`. -/
def encode_array_length (size : Nat) : String := "*" ++ (toString size ++ "\r\n")

/-- src/encoding/array.rs `encode_array_item`. -/
def encode_array_item (item : String) : String :=
  "$" ++ (toString item.utf8ByteSize ++ ("\r\n" ++ (item ++ "\r\n")))

/-- src/encoding/array.rs `encode_array`. -/
def encode_array (input : List String) : String :=
  input.foldl (fun acc item => acc ++ encode_array_item item)
    (encode_array_length input.length)

/-- Modelled from the spec: `encode_integer` lives in src/encoding/integer.rs,
which is not among the sources (only the module export is).  The spec fixes
the integer reply as a colon, the signed decimal integer, CRLF. -/
def encode_integer (int : Int) : String := ":" ++ (toString int ++ "\r\n")

/-- Modelled from the spec: `encode_string_array` is used by src/server.rs and
src/commands.rs but its definition is not among the sources.  The spec's
array form is the length line followed by each element as a bulk string,
exactly the shape of `encode_array`. -/
def encode_string_array (input : List String) : String := encode_array input

/-! ## Character-list string helpers

Rust's `find`, `to_ascii_lowercase`, `starts_with`, `lines` and friends are
modelled directly over the character list (the core library's equivalents
are defined by well-founded recursion on byte positions, which the kernel
cannot evaluate). -/

/-- Rust `str::find(c).is_some()` / `contains`. -/
def contains_char (s : String) (c : Char) : Bool := s.data.contains c

/-- Rust `to_ascii_lowercase` (Lean's `Char.toLower` is ASCII-only, exactly
the Rust behavior). -/
def to_ascii_lower (s : String) : String := ⟨s.data.map Char.toLower⟩

/-- Whether the first character of `s` is `c` (Rust `starts_with(c)`). -/
def first_char_is (s : String) (c : Char) : Bool :=
  match s.data with
  | x :: _ => x = c
  | [] => false

/-- Split a character list at every occurrence of `c` (the resulting list is
never empty). -/
def split_char (c : Char) : List Char → List (List Char)
  | [] => [[]]
  | x :: rest =>
    match split_char c rest with
    | [] => [[]]
    | group :: groups => if x = c then [] :: group :: groups else (x :: group) :: groups

/-! ## Data model (src/data/mod.rs) -/

/-- src/data/mod.rs `RedisStreamItem`: one field/value pair of a stream entry. -/
structure RedisStreamItem where
  key : String
  value : String
deriving Repr, DecidableEq

/-- src/data/mod.rs `InnerRedisStream`: one stream entry. -/
structure InnerRedisStream where
  items : List RedisStreamItem
  ms_time : Nat
  sequence_number : Nat
deriving Repr, DecidableEq

/-- src/data/mod.rs `InnerRedisStream::stream_id`. -/
def InnerRedisStream.stream_id (s : InnerRedisStream) : String :=
  toString s.ms_time ++ ("-" ++ toString s.sequence_number)

/-- src/data/mod.rs `RedisString`: payload, optional duration, and the
handle of the pending deletion task (modelled as an abstract task id). -/
structure RedisString where
  data : String
  duration : Option Nat
  cancellation_process : Option Nat
deriving Repr, DecidableEq

/-- src/data/mod.rs `DatabaseItem`. -/
inductive DatabaseItem where
  | string (s : RedisString)
  | stream (entries : List InnerRedisStream)
deriving Repr, DecidableEq

/-- src/data/mod.rs `DatabaseItem::data_type`. -/
def DatabaseItem.data_type : DatabaseItem → String
  | .string _ => bulk_string "string"
  | .stream _ => bulk_string "stream"

/-- The shared `HashMap<String, DatabaseItem>` is modelled as an association
list with the map operations below; the HashMap keeps keys unique, which
`dbInsert` preserves by replacing in place. -/
abbrev Db := List (String × DatabaseItem)

def dbGet : Db → String → Option DatabaseItem
  | [], _ => none
  | (k', v) :: rest, k => if k' = k then some v else dbGet rest k

def dbInsert : Db → String → DatabaseItem → Db
  | [], k, v => [(k, v)]
  | (k', v') :: rest, k, v =>
    if k' = k then (k, v) :: rest else (k', v') :: dbInsert rest k v

def dbRemove : Db → String → Db
  | [], _ => []
  | (k', v') :: rest, k => if k' = k then rest else (k', v') :: dbRemove rest k

@[simp] theorem dbGet_dbInsert_self (db : Db) (k : String) (v : DatabaseItem) :
    dbGet (dbInsert db k v) k = some v := by
  induction db with
  | nil => simp [dbInsert, dbGet]
  | cons hd tl ih =>
    by_cases h : hd.1 = k
    · simp [dbInsert, dbGet, h]
    · simp [dbInsert, dbGet, h, ih]

theorem dbGet_dbInsert_ne (db : Db) (k k' : String) (v : DatabaseItem)
    (h : k ≠ k') : dbGet (dbInsert db k v) k' = dbGet db k' := by
  induction db with
  | nil => simp [dbInsert, dbGet, h]
  | cons hd tl ih =>
    by_cases hh : hd.1 = k
    · simp [dbInsert, dbGet, hh, h]
    · simp [dbInsert, dbGet, hh, ih]

/-! ## Stream engine (src/data/mod.rs) -/

/-- src/request.rs `XAddNumber`. -/
inductive XAddNumber where
  | Autogenerate
  | Predetermined (val : Nat)
deriving Repr, DecidableEq

/-- src/request.rs `XAddCommand`. -/
structure XAddCommand where
  stream_key : String
  ms_time : XAddNumber
  sequence_number : XAddNumber
  data : List RedisStreamItem
deriving Repr, DecidableEq

/-- src/transmission.rs `XAddTransmission`: the event published on the
notification bus by a successful XADD. -/
structure XAddTransmission where
  key : String
  ms_time : Nat
  sequence_number : Nat
  data : List RedisStreamItem
deriving Repr, DecidableEq

/-- src/data/mod.rs `determine_sequence_number`. -/
def determine_sequence_number (num : XAddNumber) (ms_time : Nat)
    (latest_inner : InnerRedisStream) : Nat :=
  match num with
  | .Predetermined val => val
  | .Autogenerate =>
    let sequence_number := if latest_inner.ms_time < ms_time then 0 else 1
    if sequence_number = 0 ∧ ms_time = 0 then 1 else sequence_number

/-- Result of `Database::add_stream`: the updated map, the reply, and the
events published on the bus. -/
structure XAddResult where
  db : Db
  result : Except String String
  events : List XAddTransmission
deriving Repr

/-- Resolution of the millisecond part of an XADD id
(src/data/mod.rs lines 185-188).  `now` stands for
`utils::current_unix_timestamp`, whose definition is not among the sources;
it is modelled from the spec: the current wall clock in milliseconds. -/
def resolve_ms (command : XAddCommand) (now : Nat) : Nat :=
  match command.ms_time with
  | .Autogenerate => now
  | .Predetermined val => val

/-- src/data/mod.rs `Database::add_stream`.  The broadcast send is modelled
as always succeeding (the caller in src/stream.rs holds a subscriber, so
the channel has a receiver). -/
def add_stream (db : Db) (command : XAddCommand) (now : Nat) : XAddResult :=
  let ms_time := resolve_ms command now
  match dbGet db command.stream_key with
  | none =>
    let sequence_number :=
      match command.sequence_number, ms_time with
      | .Autogenerate, 0 => 1
      | .Autogenerate, _ => 0
      | .Predetermined val, _ => val
    if ms_time = 0 ∧ sequence_number = 0 then
      ⟨db, .error "ERR The ID specified in XADD must be greater than 0-0", []⟩
    else
      let inner : InnerRedisStream := ⟨command.data, ms_time, sequence_number⟩
      ⟨dbInsert db command.stream_key (.stream [inner]), .ok inner.stream_id,
        [⟨command.stream_key, ms_time, sequence_number, command.data⟩]⟩
  | some (.string _) => ⟨db, .error wrong_type_str, []⟩
  | some (.stream entries) =>
    match entries.getLast? with
    | none => ⟨db, .error "Streams should always have at lest one datapoint", []⟩
    | some latest_inner =>
      let sequence_number :=
        determine_sequence_number command.sequence_number ms_time latest_inner
      if ms_time = 0 ∧ sequence_number = 0 then
        ⟨db, .error "ERR The ID specified in XADD must be greater than 0-0", []⟩
      else
        let is_okay : Bool :=
          if ms_time < latest_inner.ms_time then false
          else if ms_time = latest_inner.ms_time then
            decide (sequence_number > latest_inner.sequence_number)
          else true
        if is_okay then
          let inner : InnerRedisStream := ⟨command.data, ms_time, sequence_number⟩
          ⟨dbInsert db command.stream_key (.stream (entries ++ [inner])),
            .ok inner.stream_id,
            [⟨command.stream_key, ms_time, sequence_number, command.data⟩]⟩
        else
          ⟨db,
            .error "ERR The ID specified in XADD is equal or smaller than the target stream top item",
            []⟩

/-- src/request.rs `XRangeNumber`. -/
inductive XRangeNumber where
  | Unspecified
  | Specified (ms_time : Nat) (sequence_number : Nat)
deriving Repr, DecidableEq

/-- The scan loop of src/data/mod.rs `Database::read_from_stream`
(lines 303-345): skip entries below `start` until the window opens, stop at
the first entry past `ending`, and collect the rest in order. -/
def xrange_loop (start ending : XRangeNumber) (has_started : Bool) :
    List InnerRedisStream → List InnerRedisStream
  | [] => []
  | entry :: rest =>
    let started :=
      if has_started then true
      else
        match start with
        | .Unspecified => true
        | .Specified ms seq =>
          if entry.ms_time < ms then false
          else if entry.ms_time = ms ∧ entry.sequence_number < seq then false
          else true
    if started then
      let must_break :=
        match ending with
        | .Unspecified => false
        | .Specified ms seq =>
          if entry.ms_time > ms then true
          else if entry.ms_time = ms ∧ entry.sequence_number > seq then true
          else false
      if must_break then [] else entry :: xrange_loop start ending true rest
    else xrange_loop start ending has_started rest

/-- src/encoding/array.rs `encode_stream`. -/
def encode_stream (stream : List InnerRedisStream) : String :=
  stream.foldl
    (fun acc inner =>
      acc ++ (encode_array_length 2 ++ (encode_array_item inner.stream_id ++
        encode_array (inner.items.foldr (fun it tail => it.key :: it.value :: tail) []))))
    (encode_array_length stream.length)

/-- src/encoding/array.rs `encode_streams`; a read stream item is the pair
of the key and the collected entries. -/
def encode_streams (read_streams : List (String × List InnerRedisStream)) : String :=
  read_streams.foldl
    (fun acc item =>
      acc ++ (encode_array_length 2 ++ (encode_array_item item.1 ++ encode_stream item.2)))
    (encode_array_length read_streams.length)

/-- src/data/mod.rs `Database::read_from_stream` (XRANGE). -/
def read_from_stream (db : Db) (key : String) (start ending : XRangeNumber) :
    Except String String :=
  match dbGet db key with
  | none => .ok empty_string
  | some (.string _) => .error wrong_type_str
  | some (.stream entries) => .ok (encode_stream (xrange_loop start ending false entries))

/-- src/request.rs `XReadNumber`. -/
inductive XReadNumber where
  | AllNewEntries
  | Specified (ms_time : Nat) (sequence_number : Nat)
deriving Repr, DecidableEq

/-- src/request.rs `XReadCommandStream`. -/
structure XReadCommandStream where
  key : String
  start : XReadNumber
deriving Repr, DecidableEq

/-- src/data/mod.rs `stream_entry_greater_than_start`. -/
def stream_entry_greater_than_start (entry_ms_time entry_sequence_number : Nat)
    (start : XReadNumber) : Bool :=
  match start with
  | .AllNewEntries => true
  | .Specified ms_time sequence_number =>
    if entry_ms_time < ms_time then false
    else if entry_ms_time = ms_time ∧ entry_sequence_number ≤ sequence_number then false
    else true

/-- The per-stream scan of src/data/mod.rs `read_streams_sync` (lines
794-808): once an entry exceeds `start` the remainder of the log is taken. -/
def xread_collect (start : XReadNumber) (has_started : Bool) :
    List InnerRedisStream → List InnerRedisStream
  | [] => []
  | entry :: rest =>
    if has_started then entry :: xread_collect start true rest
    else if stream_entry_greater_than_start entry.ms_time entry.sequence_number start then
      entry :: xread_collect start true rest
    else xread_collect start false rest

/-- The aggregation loop of src/data/mod.rs `read_streams_sync`: absent keys
are skipped, a non-stream value aborts with WRONGTYPE, and every existing
stream contributes a (possibly empty) group. -/
def collect_streams (db : Db) :
    List XReadCommandStream → Except String (List (String × List InnerRedisStream))
  | [] => .ok []
  | command_stream :: rest =>
    match dbGet db command_stream.key with
    | none => collect_streams db rest
    | some (.string _) => .error wrong_type_str
    | some (.stream entries) =>
      match collect_streams db rest with
      | .error e => .error e
      | .ok tail => .ok ((command_stream.key, xread_collect command_stream.start false entries) :: tail)

/-- src/data/mod.rs `read_streams_sync` (non-blocking XREAD). -/
def read_streams_sync (db : Db) (read_command_streams : List XReadCommandStream) :
    Except String String :=
  match collect_streams db read_command_streams with
  | .error e => .error e
  | .ok streams =>
    .ok (if streams.isEmpty then empty_string else encode_streams streams)

/-! ## Numeric parsing (Rust `str::parse` for the integer widths used) -/

def parse_digits_aux : List Char → Nat → Option Nat
  | [], acc => some acc
  | c :: rest, acc =>
    if c.isDigit then parse_digits_aux rest (acc * 10 + (c.toNat - 48)) else none

/-- Decimal digits to a number; fails on the empty string or a non-digit. -/
def parse_digits : List Char → Option Nat
  | [] => none
  | cs => parse_digits_aux cs 0

/-- Rust `str::parse` for an unsigned integer of `width` bits: an optional
leading plus sign, decimal digits, and a range check. -/
def rust_parse_unsigned (width : Nat) (s : String) : Option Nat :=
  let cs :=
    match s.data with
    | '+' :: rest => rest
    | other => other
  match parse_digits cs with
  | none => none
  | some v => if v < 2 ^ width then some v else none

def rust_parse_u16 : String → Option Nat := rust_parse_unsigned 16
def rust_parse_u64 : String → Option Nat := rust_parse_unsigned 64
def rust_parse_usize : String → Option Nat := rust_parse_unsigned 64
def rust_parse_u128 : String → Option Nat := rust_parse_unsigned 128

/-- Rust `str::parse::<i64>`: optional sign, digits, i64 range check. -/
def rust_parse_i64 (s : String) : Option Int :=
  match s.data with
  | '-' :: rest =>
    (parse_digits rest).bind fun v =>
      if v ≤ 2 ^ 63 then some (-(v : Int)) else none
  | '+' :: rest =>
    (parse_digits rest).bind fun v =>
      if v < 2 ^ 63 then some ((v : Int)) else none
  | cs =>
    (parse_digits cs).bind fun v =>
      if v < 2 ^ 63 then some ((v : Int)) else none

/-- Rust `str::parse::<f64>`, modelled on the subset of the grammar the
server exercises: optional sign, integer digits, optional fractional
digits.  The exact float grammar and formatting are not load-bearing for
any claim. -/
def rust_parse_f64 (s : String) : Option Float :=
  let signed :=
    match s.data with
    | '-' :: rest => (true, rest)
    | '+' :: rest => (false, rest)
    | cs => (false, cs)
  let cs := signed.2
  let int_digits := cs.takeWhile Char.isDigit
  let rest := cs.dropWhile Char.isDigit
  let parts : Option (Nat × Nat × Nat) :=
    match rest with
    | [] =>
      match parse_digits int_digits with
      | some v => some (v, 0, 0)
      | none => none
    | '.' :: frac =>
      if frac.all Char.isDigit ∧ (int_digits ≠ [] ∨ frac ≠ []) then
        some ((parse_digits int_digits).getD 0, (parse_digits frac).getD 0, frac.length)
      else none
    | _ => none
  parts.map fun p =>
    let magnitude := Float.ofNat p.1 + Float.ofNat p.2.1 / Float.ofNat (10 ^ p.2.2)
    if signed.1 then -magnitude else magnitude

/-! ## Storage engine string operations (src/data/mod.rs)

Each operation returns the new map, its reply value, the identifiers of the
deletion tasks it aborted, and the `(task id, delay)` pairs it spawned
(`fresh` supplies the identifier of a newly spawned task). -/

structure StringOpResult (α : Type) where
  db : Db
  result : α
  aborted : List Nat
  spawned : List (Nat × Nat)
deriving Repr

/-- src/request.rs `SetOverride`. -/
inductive SetOverride where
  | Normal
  | NeverOverwrite
  | OnlyOverwrite
deriving Repr, DecidableEq

/-- src/request.rs `CommandExpiration` (`Other` is KEEPTTL on SET and
PERSIST on GETEX); the duration is in milliseconds. -/
inductive CommandExpiration where
  | None
  | Expiry (duration : Nat)
  | Other
deriving Repr, DecidableEq

/-- src/data/mod.rs `Database::set_value` (the SET command). -/
def set_value (db : Db) (key value : String) (return_old_value : Bool)
    (overwrites : SetOverride) (expires : CommandExpiration) (fresh : Nat) :
    StringOpResult (Except String String) :=
  let item0 := dbGet db key
  let wrong_kind : Bool :=
    match item0 with
    | some (.stream _) => return_old_value
    | _ => false
  if wrong_kind then ⟨db, .error wrong_type_str, [], []⟩
  else
    let item : Option RedisString :=
      match item0 with
      | some (.string redis_string) => some redis_string
      | _ => none
    let return_data :=
      if return_old_value then
        match item with
        | some i => bulk_string i.data
        | none => empty_string
      else okay_string
    let duration : Option Nat :=
      match expires with
      | .None => none
      | .Other =>
        match item with
        | some i => i.duration
        | none => none
      | .Expiry d => some d
    match overwrites, item.isSome with
    | .Normal, _ | .OnlyOverwrite, true | .NeverOverwrite, false =>
      let aborted :=
        match item with
        | some i => i.cancellation_process.toList
        | none => []
      let new_value : RedisString :=
        ⟨value, duration, if duration.isSome then some fresh else none⟩
      let spawned :=
        match duration with
        | some d => [(fresh, d)]
        | none => []
      ⟨dbInsert db key (.string new_value), .ok return_data, aborted, spawned⟩
    | _, true =>
      match item with
      | some i =>
        let aborted := i.cancellation_process.toList
        let kept : RedisString :=
          ⟨i.data, i.duration, if duration.isSome then some fresh else none⟩
        let spawned :=
          match duration with
          | some d => [(fresh, d)]
          | none => []
        ⟨dbInsert db key (.string kept), .ok return_data, aborted, spawned⟩
      | none => ⟨db, .ok return_data, [], []⟩
    | _, _ => ⟨db, .ok return_data, [], []⟩

/-- src/data/mod.rs `Database::update_expiration` (the GETEX command). -/
def update_expiration (db : Db) (key : String) (expiration : CommandExpiration)
    (fresh : Nat) : StringOpResult (Except String String) :=
  match dbGet db key with
  | none => ⟨db, .ok empty_string, [], []⟩
  | some (.stream _) => ⟨db, .error wrong_type_str, [], []⟩
  | some (.string item) =>
    let data := bulk_string item.data
    let aborted := item.cancellation_process.toList
    let duration : Option Nat :=
      match expiration with
      | .None => none
      | .Other => none
      | .Expiry d => some d
    match duration with
    | none =>
      ⟨dbInsert db key (.string ⟨item.data, item.duration, none⟩), .ok data, aborted, []⟩
    | some d =>
      ⟨dbInsert db key (.string ⟨item.data, item.duration, some fresh⟩), .ok data,
        aborted, [(fresh, d)]⟩

/-- src/data/mod.rs `Database::get_remove` (the GETDEL command). -/
def get_remove (db : Db) (key : String) : StringOpResult (Except String (Option String)) :=
  match dbGet db key with
  | none => ⟨db, .ok none, [], []⟩
  | some (.stream _) => ⟨db, .error wrong_type_str, [], []⟩
  | some (.string item) =>
    ⟨dbRemove db key, .ok (some (bulk_string item.data)),
      item.cancellation_process.toList, []⟩

/-- src/data/mod.rs `Database::remove_multiple` (the DEL command): the new
map, the count of removed keys, and the aborted task ids. -/
def remove_multiple (db : Db) : List String → Db × Nat × List Nat
  | [] => (db, 0, [])
  | key :: rest =>
    match dbGet db key with
    | none => remove_multiple db rest
    | some item =>
      let aborted :=
        match item with
        | .string redis_string => redis_string.cancellation_process.toList
        | .stream _ => []
      let r := remove_multiple (dbRemove db key) rest
      (r.1, r.2.1 + 1, aborted ++ r.2.2)

/-- src/data/mod.rs `adjust_int_value_by_int` (with the i64 overflow check
of `checked_add`). -/
def adjust_int_value_by_int (data : String) (amount : Int) : Except String String :=
  match rust_parse_i64 data with
  | none => .error not_an_integer
  | some value =>
    let sum := value + amount
    if sum < -(2 ^ 63) ∨ 2 ^ 63 ≤ sum then .error "ERR increment or decrement would overflow"
    else .ok (toString sum)

/-- src/data/mod.rs `adjust_float_value_by_int`.  Float formatting follows
Lean's printer; no claim depends on the exact float text. -/
def adjust_float_value_by_int (data : String) (amount : Int) : Except String String :=
  match rust_parse_f64 data with
  | none => .error "ERR value is not a float or out of range"
  | some value => .ok (toString (value + Float.ofInt amount))

/-- src/data/mod.rs `adjust_float_value_by_float`. -/
def adjust_float_value_by_float (data : String) (amount : Float) : Except String String :=
  match rust_parse_f64 data with
  | none => .error "ERR value is not a float or out of range"
  | some value => .ok (toString (value + amount))

/-- src/data/mod.rs `adjust_int_value_by_float`. -/
def adjust_int_value_by_float (data : String) (amount : Float) : Except String String :=
  match rust_parse_i64 data with
  | none => .error not_an_integer
  | some value => .ok (toString (Float.ofInt value + amount))

/-- Reply encoding at the end of `Database::adjust_value_by_int`: the source
unwraps an i64 re-parse of the produced text; the unreachable failure is
modelled as falling back to the bulk form. -/
def encode_adjust_result (value : String) : String :=
  if contains_char value '.' then bulk_string value
  else
    match rust_parse_i64 value with
    | some v => encode_integer v
    | none => bulk_string value

/-- src/data/mod.rs `Database::adjust_value_by_int` (INCR, INCRBY, DECR,
DECRBY).  Note: the stored value is mutated in place and no deletion task
is aborted. -/
def adjust_value_by_int (db : Db) (key : String) (adjustment : Int) :
    StringOpResult (Except String String) :=
  match dbGet db key with
  | none =>
    ⟨dbInsert db key (.string ⟨toString adjustment, none, none⟩),
      .ok (encode_adjust_result (toString adjustment)), [], []⟩
  | some (.stream _) =>
    ⟨db, .error ("Item at key " ++ (key ++ " is not a string")), [], []⟩
  | some (.string redis_string) =>
    let computed :=
      if contains_char redis_string.data '.' then
        adjust_float_value_by_int redis_string.data adjustment
      else adjust_int_value_by_int redis_string.data adjustment
    match computed with
    | .error e => ⟨db, .error e, [], []⟩
    | .ok value =>
      ⟨dbInsert db key
          (.string ⟨value, redis_string.duration, redis_string.cancellation_process⟩),
        .ok (encode_adjust_result value), [], []⟩

/-- src/data/mod.rs `Database::adjust_value_by_float` (INCRBYFLOAT). -/
def adjust_value_by_float (db : Db) (key : String) (adjustment : Float) :
    StringOpResult (Except String String) :=
  match dbGet db key with
  | none =>
    ⟨dbInsert db key (.string ⟨toString adjustment, none, none⟩),
      .ok (bulk_string (toString adjustment)), [], []⟩
  | some (.stream _) =>
    ⟨db, .error ("Item at key " ++ (key ++ " is not a string")), [], []⟩
  | some (.string redis_string) =>
    let computed :=
      if contains_char redis_string.data '.' then
        adjust_float_value_by_float redis_string.data adjustment
      else adjust_int_value_by_float redis_string.data adjustment
    match computed with
    | .error e => ⟨db, .error e, [], []⟩
    | .ok value =>
      ⟨dbInsert db key
          (.string ⟨value, redis_string.duration, redis_string.cancellation_process⟩),
        .ok (bulk_string value), [], []⟩

/-- src/data/mod.rs `Database::set_item` (used by the snapshot loader): a
plain insert that aborts nothing. -/
def set_item (db : Db) (key : String) (item : DatabaseItem) : Db :=
  dbInsert db key item

/-! ## Wire codec (src/utils.rs) -/

/-- src/utils.rs `Frame` (element lines plus the consumed byte count). -/
structure RFrame where
  data : List (List Nat)
  bytes_processed : Nat
deriving Repr, DecidableEq

/-- src/utils.rs `read_line`: consume bytes up to the first CR (13), then
advance one further byte (the assumed LF).  Returns the line without the
terminator and the number of bytes consumed; `none` models the
`UnexpectedEof` error when the buffer runs out before a CR. -/
def read_line : List Nat → Option (List Nat × Nat)
  | [] => none
  | b :: rest =>
    if b = 13 then some ([], 2)
    else
      match read_line rest with
      | none => none
      | some (line, n) => some (b :: line, n + 1)

/-- Iterated `read_line` for the `2n` element lines of src/utils.rs
`read_frame`; any `UnexpectedEof` aborts the whole read. -/
def read_lines : Nat → List Nat → Option (List (List Nat) × Nat)
  | 0, _ => some ([], 0)
  | n + 1, buf =>
    match read_line buf with
    | none => none
    | some (line, k) =>
      match read_lines n (buf.drop k) with
      | none => none
      | some (lines, total) => some (line :: lines, k + total)

/-- src/utils.rs `read_frame`.  `Except.ok none` is the need-more-data
outcome (only produced when the FIRST `read_line` hits end of input);
`Except.error` covers the propagated errors: an unparsable length line, or
end of input inside the `2n` element lines. -/
def read_frame (buf : List Nat) : Except Unit (Option RFrame) :=
  match read_line buf with
  | none => .ok none
  | some (size_line, n1) =>
    match parse_digits ((size_line.drop 1).map (Char.ofNat ·)) with
    | none => .error ()
    | some parsed_size =>
      if parsed_size < 2 ^ 64 then
        match read_lines (parsed_size * 2) (buf.drop n1) with
        | none => .error ()
        | some (lines, total) => .ok (some ⟨size_line :: lines, n1 + total⟩)
      else .error ()

/-! ## Command parser (src/request.rs) -/

/-- src/request.rs `SetCommand`. -/
structure SetCommand where
  key : String
  value : String
  get_old_value : Bool
  overwrite : SetOverride
  expires : CommandExpiration
deriving Repr

/-- src/request.rs `ReplicationCommand`. -/
inductive ReplicationCommand where
  | ListeningPort (port : Nat)
  | Capabilities
  | Ack
deriving Repr, DecidableEq

/-- src/request.rs `PsyncOffset`. -/
inductive PsyncOffset where
  | None
  | Offset (offset : Nat)
deriving Repr, DecidableEq

/-- src/request.rs `ConfigKey`. -/
inductive ConfigKey where
  | Dir
  | Dbfilename
deriving Repr, DecidableEq

/-- src/request.rs `ConfigCommand`. -/
inductive ConfigCommand where
  | Get (key : ConfigKey)
deriving Repr, DecidableEq

/-- src/request.rs `XReadBlock`. -/
inductive XReadBlock where
  | Limited (wait : Nat)
  | Unlimited
deriving Repr, DecidableEq

/-- src/request.rs `XReadCommand`. -/
structure XReadCommand where
  streams : List XReadCommandStream
  block : Option XReadBlock
deriving Repr, DecidableEq

/-- src/request.rs `XRangeCommand` (the Rust field `end` is `ending` here). -/
structure XRangeCommand where
  key : String
  start : XRangeNumber
  ending : XRangeNumber
deriving Repr, DecidableEq

/-- src/request.rs `Command` (`Type` is `Type_`: Lean reserves the word). -/
inductive Command where
  | Ping (body : Option String)
  | Echo (body : String)
  | Set (command : SetCommand)
  | Get (key : String)
  | GetDel (key : String)
  | GetEx (key : String) (expiry : CommandExpiration)
  | Del (keys : List String)
  | Info
  | ReplConf (command : ReplicationCommand)
  | Psync (id : String) (offset : PsyncOffset)
  | Wait (num_replicas : Nat) (timeout : Nat)
  | Config (command : ConfigCommand)
  | Keys (key_group : String)
  | Type_ (key : String)
  | Xadd (command : XAddCommand)
  | Xrange (command : XRangeCommand)
  | Xread (command : XReadCommand)
  | Incr (key : String)
  | IncrBy (key : String) (amount : Int)
  | IncrByFloat (key : String) (amount : Float)
  | Decr (key : String)
  | DecrBy (key : String) (amount : Int)
deriving Repr

def set_explanation : String :=
  "SET key value [NX | XX] [GET] [EX seconds | PX milliseconds |\n  EXAT unix-time-seconds | PXAT unix-time-milliseconds | KEEPTTL]"

/-- src/request.rs `parse_expiry`: u64 parse, then milliseconds with the
wrapping u64 multiplication of release builds. -/
def parse_expiry (amount : String) (multiplier : Nat) : Except String Nat :=
  match rust_parse_u64 amount with
  | none => .error not_an_integer
  | some a => .ok (a * multiplier % 2 ^ 64)

/-- src/request.rs `parse_expiry_at`: `checked_mul`, the current wall clock
in milliseconds (`now`, see `resolve_ms`), and `checked_sub`. -/
def parse_expiry_at (time : String) (multiplier : Nat) (now : Nat) : Except String Nat :=
  match rust_parse_u64 time with
  | none => .error not_an_integer
  | some t =>
    if 2 ^ 64 ≤ t * multiplier then .error "ERR time is too large"
    else if t * multiplier < now then .error "ERR time is in the past"
    else .ok (t * multiplier - now)

def parse_ping : List String → Except String Command
  | [] => .ok (.Ping none)
  | [msg] => .ok (.Ping (some msg))
  | _ => .error "usage ping [message]"

def parse_echo : List String → Except String Command
  | [msg] => .ok (.Echo msg)
  | _ => .error "usage echo message"

/-- The option loop of src/request.rs `parse_set`. -/
def parse_set_opts (now : Nat) :
    List String → SetOverride → Bool → CommandExpiration →
    Except String (SetOverride × Bool × CommandExpiration)
  | [], overwrite, get_old, expires => .ok (overwrite, get_old, expires)
  | item :: rest, overwrite, get_old, expires =>
    match to_ascii_lower item with
    | "xx" => parse_set_opts now rest .OnlyOverwrite get_old expires
    | "nx" => parse_set_opts now rest .NeverOverwrite get_old expires
    | "get" => parse_set_opts now rest overwrite true expires
    | "ex" =>
      match rest with
      | [] => .error ("Missing EX seconds: " ++ set_explanation)
      | amount :: rest' =>
        match parse_expiry amount 1000 with
        | .error e => .error e
        | .ok d => parse_set_opts now rest' overwrite get_old (.Expiry d)
    | "px" =>
      match rest with
      | [] => .error ("Missing PX milliseconds: " ++ set_explanation)
      | amount :: rest' =>
        match parse_expiry amount 1 with
        | .error e => .error e
        | .ok d => parse_set_opts now rest' overwrite get_old (.Expiry d)
    | "exat" =>
      match rest with
      | [] => .error ("Missing UNIX timestamp (in seconds): " ++ set_explanation)
      | time :: rest' =>
        match parse_expiry_at time 1000 now with
        | .error e => .error e
        | .ok d => parse_set_opts now rest' overwrite get_old (.Expiry d)
    | "pxat" =>
      match rest with
      | [] => .error ("Missing UNIX timestamp (in milliseconds): " ++ set_explanation)
      | time :: rest' =>
        match parse_expiry_at time 1 now with
        | .error e => .error e
        | .ok d => parse_set_opts now rest' overwrite get_old (.Expiry d)
    | "keepttl" => parse_set_opts now rest overwrite get_old .Other
    | _ => .error ("unknown option: " ++ item)

/-- src/request.rs `parse_set`. -/
def parse_set (body : List String) (now : Nat) : Except String Command :=
  match body with
  | [] => .error ("Missing key: " ++ set_explanation)
  | [_] => .error ("Missing value: " ++ set_explanation)
  | key :: value :: opts =>
    match parse_set_opts now opts .Normal false .None with
    | .error e => .error e
    | .ok r => .ok (.Set ⟨key, value, r.2.1, r.1, r.2.2⟩)

def parse_get : List String → Except String Command
  | key :: _ => .ok (.Get key)
  | [] => .error "ERR missing key for GET command"

def parse_info (body : List String) : Except String Command :=
  if body.length = 1 then .ok .Info else .error "usage info replication"

def parse_replconf (body : List String) : Except String Command :=
  if h : body.length = 2 then
    let subcommand := body.get ⟨0, by omega⟩
    let arg := body.get ⟨1, by omega⟩
    match to_ascii_lower subcommand with
    | "listening-port" =>
      match rust_parse_u16 arg with
      | some port => .ok (.ReplConf (.ListeningPort port))
      | none => .error "Parsing port into number"
    | "capa" =>
      if arg = "psync2" then .ok (.ReplConf .Capabilities)
      else .error "capa command must be followed by psync2"
    | "getack" =>
      if arg = "*" then .ok (.ReplConf .Ack)
      else .error "gatack command must be followed by wildcard *"
    | _ => .error ("unknown subcommand: " ++ subcommand)
  else .error "usage REPLCONF [listening-port <port>] | [capa psync2]"

def parse_psync (body : List String) : Except String Command :=
  if h : body.length = 2 then
    let replication_id := body.get ⟨0, by omega⟩
    let offset_str := body.get ⟨1, by omega⟩
    if offset_str = "-1" then .ok (.Psync replication_id .None)
    else
      match rust_parse_u16 offset_str with
      | some offset => .ok (.Psync replication_id (.Offset offset))
      | none => .error "Parsing offset into number"
  else .error "usage resync <replication-id> <offset>"

def parse_wait (body : List String) : Except String Command :=
  match body.get? 0, body.get? 1 with
  | some num_replicas, some timeout =>
    match rust_parse_usize num_replicas, rust_parse_u64 timeout with
    | some n, some t => .ok (.Wait n t)
    | _, _ => .error "invalid digit found in string"
  | _, _ => .error "usage wait <numreplicas> <timeout>"

def parse_config (body : List String) : Except String Command :=
  match body.get? 0 with
  | none => .error "ERR config must specify a command"
  | some get_cmd =>
    if to_ascii_lower get_cmd ≠ "get" then .error "ERR only get commands supported for config for now"
    else
      match body.get? 1 with
      | none => .error "command must specify key"
      | some get_option =>
        match to_ascii_lower get_option with
        | "dir" => .ok (.Config (.Get .Dir))
        | "dbfilename" => .ok (.Config (.Get .Dbfilename))
        | _ => .error "supported keys are dir and dbfilename"

def parse_keys (body : List String) : Except String Command :=
  match body.get? 0 with
  | none => .error "keys must specify a command"
  | some key_group =>
    if key_group = "*" then .ok (.Keys key_group)
    else .error ("ERR Only * command supported for keys, received " ++ key_group)

def parse_type (body : List String) : Except String Command :=
  match body.get? 0 with
  | none => .error "usage type <key>"
  | some key => .ok (.Type_ key)

/-- Rust `str::split_once` over characters. -/
def split_once_aux (c : Char) : List Char → Option (List Char × List Char)
  | [] => none
  | x :: rest =>
    if x = c then some ([], rest)
    else (split_once_aux c rest).map fun p => (x :: p.1, p.2)

def split_once (s : String) (c : Char) : Option (String × String) :=
  (split_once_aux c s.data).map fun p => (⟨p.1⟩, ⟨p.2⟩)

/-- src/request.rs `get_stream_id`. -/
def get_stream_id : Option String → Option (XAddNumber × XAddNumber)
  | none => none
  | some stream_id =>
    if stream_id = "*" then some (.Autogenerate, .Autogenerate)
    else
      match split_once stream_id '-' with
      | none => none
      | some (time_part, seq_part) =>
        match rust_parse_usize time_part with
        | none => none
        | some t =>
          if seq_part = "*" then some (.Predetermined t, .Autogenerate)
          else
            match rust_parse_usize seq_part with
            | none => none
            | some sq => some (.Predetermined t, .Predetermined sq)

/-- The `chunks(2)` field/value pairing of src/request.rs `parse_xadd`; the
source indexes `data[1]` and panics on an odd tail, modelled as a parse
failure. -/
def chunk_pairs : List String → Except String (List RedisStreamItem)
  | [] => .ok []
  | [_] => .error "index out of bounds: XADD field without value"
  | k :: v :: rest =>
    match chunk_pairs rest with
    | .error e => .error e
    | .ok items => .ok (⟨k, v⟩ :: items)

/-- src/request.rs `parse_xadd`. -/
def parse_xadd (body : List String) : Except String Command :=
  match body with
  | [] => .error "usage xadd <key> [entry_id] [...key value]"
  | stream_key :: rest =>
    match get_stream_id rest.head? with
    | none => .error "ERR Stream ID format not recognized"
    | some (ms_time, sequence_number) =>
      match chunk_pairs (body.drop 2) with
      | .error e => .error e
      | .ok items => .ok (.Xadd ⟨stream_key, ms_time, sequence_number, items⟩)

/-- src/request.rs `parse_xadd_specified_number`. -/
def parse_xadd_specified_number (nums : String) : Except String (Nat × Nat) :=
  match split_once nums '-' with
  | some (ms_time, sequence_number) =>
    match rust_parse_u128 ms_time, rust_parse_usize sequence_number with
    | some m, some s => .ok (m, s)
    | _, _ => .error "invalid digit found in string"
  | none =>
    match rust_parse_u128 nums with
    | some m => .ok (m, 0)
    | none => .error "invalid digit found in string"

/-- src/request.rs `parse_xrange`. -/
def parse_xrange (body : List String) : Except String Command :=
  match body.get? 0 with
  | none => .error "usage xrange <key> <start> <end>"
  | some key =>
    match body.get? 1 with
    | none => .error "usage xrange <key> <start> <end>"
    | some start_str =>
      let startE : Except String XRangeNumber :=
        if start_str.length = 1 ∧ first_char_is start_str '-' then .ok .Unspecified
        else
          match parse_xadd_specified_number start_str with
          | .error e => .error e
          | .ok p => .ok (.Specified p.1 p.2)
      match startE with
      | .error e => .error e
      | .ok start =>
        match body.get? 2 with
        | none => .error "usage xrange <key> <start> <end>"
        | some end_str =>
          let endE : Except String XRangeNumber :=
            if end_str.length = 1 ∧ first_char_is end_str '+' then .ok .Unspecified
            else
              match parse_xadd_specified_number end_str with
              | .error e => .error e
              | .ok p => .ok (.Specified p.1 p.2)
          match endE with
          | .error e => .error e
          | .ok ending => .ok (.Xrange ⟨key, start, ending⟩)

/-- The stream-count scan of src/request.rs `parse_xread`: index of the
first item after STREAMS that parses as an id or is `$`; the source leaves
`num_streams` at 0 when nothing matches. -/
def xread_num_streams (items : List String) : Nat :=
  match items.findIdx? (fun item =>
      (parse_xadd_specified_number item).isOk ||
        (item.length = 1 && first_char_is item '$')) with
  | some i => i
  | none => 0

def parse_xread_one_stream (body : List String) (starting_index num_streams i : Nat)
    (block : Option XReadBlock) : Except String XReadCommandStream :=
  match body.get? (i + starting_index) with
  | none => .error ("ERR Unable to read stream key at index " ++ toString (i + starting_index))
  | some key =>
    match body.get? (i + starting_index + num_streams) with
    | none =>
      .error ("ERR Unable to read stream start at index " ++
        toString (i + starting_index + num_streams))
    | some stream_start =>
      if stream_start.length = 1 ∧ first_char_is stream_start '$' then
        if block.isNone then .error "ERR $ entry ID can only be used in blocking commands"
        else .ok ⟨key, .AllNewEntries⟩
      else
        match parse_xadd_specified_number stream_start with
        | .error e => .error e
        | .ok p => .ok ⟨key, .Specified p.1 p.2⟩

def parse_xread_streams (body : List String) (starting_index num_streams : Nat)
    (block : Option XReadBlock) : Nat → Except String (List XReadCommandStream)
  | 0 => .ok []
  | n + 1 =>
    match parse_xread_streams body starting_index num_streams block n with
    | .error e => .error e
    | .ok acc =>
      match parse_xread_one_stream body starting_index num_streams n block with
      | .error e => .error e
      | .ok s => .ok (acc ++ [s])

/-- src/request.rs `parse_xread`. -/
def parse_xread (body : List String) : Except String Command :=
  let block_index := body.findIdx? (fun cmd => to_ascii_lower cmd = "block")
  let block_len : Except String (Option Nat) :=
    match block_index with
    | none => .ok none
    | some block_idx =>
      match body.get? (block_idx + 1) with
      | none => .error "ERR Expected block length after block option"
      | some v =>
        match rust_parse_u64 v with
        | none => .error "invalid digit found in string"
        | some amt => .ok (some amt)
  match block_len with
  | .error e => .error e
  | .ok block_len =>
    let block : Option XReadBlock :=
      match block_len with
      | none => none
      | some 0 => some .Unlimited
      | some n => some (.Limited n)
    match body.findIdx? (fun cmd => to_ascii_lower cmd = "streams") with
    | none => .error "usage streams ..<stream_key> ..<start>"
    | some streams_idx =>
      let starting_index := streams_idx + 1
      let num_streams := xread_num_streams (body.drop starting_index)
      if num_streams = 0 then .error "ERR Expected at least one stream"
      else
        match parse_xread_streams body starting_index num_streams block num_streams with
        | .error e => .error e
        | .ok streams => .ok (.Xread ⟨streams, block⟩)

def parse_increment (body : List String) : Except String Command :=
  match body.get? 0 with
  | none => .error "usage incr <key>"
  | some key => .ok (.Incr key)

def parse_increment_by (body : List String) : Except String Command :=
  match body.get? 0 with
  | none => .error "usage incrby <key> <increment>"
  | some key =>
    match body.get? 1 with
    | none => .error "usage incrby <key> <increment>"
    | some increment =>
      match rust_parse_i64 increment with
      | none => .error not_an_integer
      | some v => .ok (.IncrBy key v)

def parse_increment_by_float (body : List String) : Except String Command :=
  match body.get? 0 with
  | none => .error "usage incrbyfloat <key> <increment"
  | some key =>
    match body.get? 1 with
    | none => .error "usage incrby <key> <increment>"
    | some increment =>
      match rust_parse_f64 increment with
      | none => .error "ERR value is not a valid float"
      | some v => .ok (.IncrByFloat key v)

def parse_decrement (body : List String) : Except String Command :=
  match body.get? 0 with
  | none => .error "usage decr <key>"
  | some key => .ok (.Decr key)

def parse_decrement_by (body : List String) : Except String Command :=
  match body.get? 0 with
  | none => .error "usage incrby <key> <decrement>"
  | some key =>
    match body.get? 1 with
    | none => .error "usage incrby <key> <decrement>"
    | some decrement =>
      match rust_parse_i64 decrement with
      | none => .error not_an_integer
      | some v => .ok (.DecrBy key v)

def parse_delete (body : List String) : Except String Command :=
  if body.isEmpty then .error "usage del <key> [key ...]"
  else .ok (.Del body)

def parse_get_delete (body : List String) : Except String Command :=
  match body.get? 0 with
  | none => .error "usage getdel <key>"
  | some key => .ok (.GetDel key)

def invalid_expire_time (command : String) : String :=
  "ERR invalid expire time in '" ++ (command ++ "' command")

/-- src/request.rs `parse_getex`: at most one option is consumed; any
following arguments are silently ignored by the source. -/
def parse_getex (body : List String) (now : Nat) : Except String Command :=
  match body with
  | [] => .error ("ERR Missing key: GETEX key [EX seconds | PX milliseconds | EXAT unix-time-seconds |\n      PXAT unix-time-milliseconds | PERSIST]")
  | key :: opts =>
    match opts with
    | [] => .ok (.GetEx key .None)
    | item :: rest =>
      match to_ascii_lower item with
      | "ex" =>
        match rest.head? with
        | none => .error (invalid_expire_time "getex")
        | some amount =>
          match parse_expiry amount 1000 with
          | .error e => .error e
          | .ok d => .ok (.GetEx key (.Expiry d))
      | "px" =>
        match rest.head? with
        | none => .error (invalid_expire_time "getex")
        | some amount =>
          match parse_expiry amount 1 with
          | .error e => .error e
          | .ok d => .ok (.GetEx key (.Expiry d))
      | "exat" =>
        match rest.head? with
        | none => .error (invalid_expire_time "getex")
        | some time =>
          match parse_expiry_at time 1000 now with
          | .error e => .error e
          | .ok d => .ok (.GetEx key (.Expiry d))
      | "pxat" =>
        match rest.head? with
        | none => .error (invalid_expire_time "getex")
        | some time =>
          match parse_expiry_at time 1 now with
          | .error e => .error e
          | .ok d => .ok (.GetEx key (.Expiry d))
      | "persist" => .ok (.GetEx key .Other)
      | other => .error ("unknown option: " ++ other)

/-- src/request.rs `Command::new`: dispatch on the lowercased keyword. -/
def Command.new (route : String) (body : List String) (now : Nat) :
    Except String Command :=
  match to_ascii_lower route with
  | "ping" => parse_ping body
  | "echo" => parse_echo body
  | "set" => parse_set body now
  | "get" => parse_get body
  | "getdel" => parse_get_delete body
  | "getex" => parse_getex body now
  | "del" => parse_delete body
  | "info" => parse_info body
  | "replconf" => parse_replconf body
  | "psync" => parse_psync body
  | "wait" => parse_wait body
  | "config" => parse_config body
  | "keys" => parse_keys body
  | "type" => parse_type body
  | "xadd" => parse_xadd body
  | "xrange" => parse_xrange body
  | "xread" => parse_xread body
  | "incr" => parse_increment body
  | "incrby" => parse_increment_by body
  | "incrbyfloat" => parse_increment_by_float body
  | "decr" => parse_decrement body
  | "decrby" => parse_decrement_by body
  | _ => .error ("unknown command: " ++ route)

/-- The `step_by(2)` of src/request.rs `parse_request`: every other element
starting with the first. -/
def every_other : List String → List String
  | [] => []
  | [x] => [x]
  | x :: _ :: rest => x :: every_other rest

/-- src/request.rs `parse_request`: the route is the third line, the body
the payload lines (even indices skipping the first two). -/
def parse_request (raw_request : List String) (now : Nat) : Except String Command :=
  match raw_request.get? 2 with
  | none => .error "missing route"
  | some command_type =>
    Command.new command_type ((every_other raw_request).drop 2) now

/-! ## Replication manager (src/server.rs) -/

/-- src/server.rs `ServerRole`: a Master carries the attached replica
connections (modelled by their count), the replicated byte offset, and the
recent-writes counter `num_sets`. -/
inductive ServerRole where
  | Master (replicas byte_offset num_sets : Nat)
  | Slave
deriving Repr, DecidableEq

/-- src/server.rs `Server` (the fields the claims touch). -/
structure ServerState where
  role : ServerRole
  repl_id : String
  repl_offset : Nat
  dir : Option String
  db_file_name : Option String
deriving Repr, DecidableEq

/-- The `REPLCONF GETACK *` frame sent by `perform_wait`. -/
def get_ack : String := encode_string_array ["REPLCONF", "GETACK", "*"]

/-- The send loop of src/server.rs `perform_wait` (lines 194-211): one
GETACK per replica unless the elapsed time has reached the timeout.
`elapsed_after k` is the wall time measured right after the k-th send
(timing is an oracle parameter); the result is the number of sends and the
final elapsed measurement. -/
def wait_loop (timeout : Nat) (elapsed_after : Nat → Nat) :
    Nat → Nat → Nat → Nat × Nat
  | 0, sent, elapsed => (sent, elapsed)
  | remaining + 1, sent, elapsed =>
    if timeout ≤ elapsed then (sent, elapsed)
    else wait_loop timeout elapsed_after remaining (sent + 1) (elapsed_after sent)

/-- src/server.rs `RedisServer::perform_wait`.  Returns the new state, the
value handed back to the client, the number of GETACK sends attempted, and
the tail sleep (the source subtracts `Duration`s, which panics when the
elapsed time exceeds the timeout; the subtraction is modelled as
saturating). -/
def perform_wait (st : ServerState) (num_replicas timeout : Nat)
    (elapsed_after : Nat → Nat) : Except String (ServerState × Nat × Nat × Nat) :=
  match st.role with
  | .Slave => .error "Slave should not receive top level wait command"
  | .Master replicas byte_offset num_sets =>
    if num_replicas = 0 then .ok (st, replicas, 0, 0)
    else
      let loop := wait_loop timeout elapsed_after replicas 0 0
      let replicas_acknowledged :=
        match num_sets with
        | 0 => replicas
        | 1 => 1
        | _ => replicas - 1
      .ok
        ({ st with role := .Master replicas (byte_offset + get_ack.utf8ByteSize) num_sets },
          replicas_acknowledged, loop.1, timeout - loop.2)

/-- Rust `str::lines` (split on LF, strip one trailing CR per line, no
trailing empty line). -/
def rust_lines (s : String) : List String :=
  let parts := split_char '\n' s.data
  let parts := if parts.getLast? = some [] then parts.dropLast else parts
  parts.map fun p =>
    match p.getLast? with
    | some c => if c = '\r' then ⟨p.dropLast⟩ else ⟨p⟩
    | none => ⟨p⟩

/-- src/server.rs `RedisServer::replicate_command`: a no-op on a Slave; on
a Master the raw frame is re-parsed, `num_sets` is set to 1 for SET, the
byte offset advances by the frame length, and the frame is written to every
replica connection (an outward effect with no state here). -/
def replicate_command (st : ServerState) (raw_bytes : String) (now : Nat) :
    Except String ServerState :=
  match st.role with
  | .Slave => .ok st
  | .Master replicas byte_offset num_sets =>
    match parse_request (rust_lines raw_bytes) now with
    | .error e => .error e
    | .ok request =>
      let num_sets' :=
        match request with
        | .Set _ => 1
        | _ => num_sets
      .ok { st with role := .Master replicas (byte_offset + raw_bytes.utf8ByteSize) num_sets' }

/-- src/server.rs `RedisServer::add_stream`: attach a connection as a
replica (Master only). -/
def add_replica (st : ServerState) : ServerState :=
  match st.role with
  | .Slave => st
  | .Master replicas byte_offset num_sets =>
    { st with role := .Master (replicas + 1) byte_offset num_sets }

/-! ## Command executors (src/commands.rs) -/

/-- src/data/mod.rs `Database::get`. -/
def database_get (db : Db) (key : String) : Except String (Option String) :=
  match dbGet db key with
  | some (.stream _) => .error wrong_type_str
  | some (.string redis_string) => .ok (some redis_string.data)
  | none => .ok none

/-- src/commands.rs `pong`. -/
def pong (body : Option String) : List String :=
  match body with
  | some b => [simple_string b]
  | none => [simple_string "PONG"]

/-- src/commands.rs `get_value`. -/
def cmd_get_value (db : Db) (key : String) : List String :=
  [match database_get db key with
   | .ok (some v) => bulk_string v
   | .ok none => empty_string
   | .error e => error_string e]

/-- src/commands.rs `replica_confirm`. -/
def replica_confirm (repl : ReplicationCommand) (size : Nat) : List String :=
  match repl with
  | .Ack => [encode_string_array ["REPLCONF", "ACK", toString size]]
  | _ => [okay_string]

/-- The hard-coded empty snapshot of src/commands.rs `perform_psync`, kept
as its hex spelling (the raw 88 bytes are not UTF-8 text, so the reply
payload is represented by this text; its byte length is the decoded one). -/
def empty_rdb_hex : String :=
  "524544495330303131fa0972656469732d76657205372e322e30fa0a72656469732d62697473c040fa056374696d65c26d08bc65fa08757365642d6d656dc2b0c41000fa08616f662d62617365c000fff06e3bfec0ff5aa2"

/-- src/commands.rs `perform_psync`: the FULLRESYNC line and the snapshot
frame (length line, then the raw payload with no trailing CRLF). -/
def perform_psync (st : ServerState) : List String :=
  [simple_string ("FULLRESYNC " ++ (st.repl_id ++ " 0")),
    "$" ++ (toString (empty_rdb_hex.length / 2) ++ ("\r\n" ++ empty_rdb_hex))]

/-- src/commands.rs `get_info`: the replication section.  The source folds
a `HashMap`, whose iteration order is unspecified; one fixed order is
modelled. -/
def get_info (st : ServerState) : List String :=
  let role := match st.role with
    | .Master _ _ _ => "master"
    | .Slave => "slave"
  [bulk_string ("role:" ++ (role ++ ("\r\n" ++ ("master_replid:" ++ (st.repl_id ++
    ("\r\n" ++ ("master_repl_offset:" ++ (toString st.repl_offset ++ "\r\n"))))))))]

/-- src/commands.rs `view_config`. -/
def view_config (st : ServerState) (config_command : ConfigCommand) : List String :=
  match config_command with
  | .Get key =>
    let key_name := match key with
      | .Dir => "dir"
      | .Dbfilename => "dbfilename"
    let value := match key with
      | .Dir => st.dir
      | .Dbfilename => st.db_file_name
    [encode_string_array [key_name, value.getD (error_string "ERR Unable to get config")]]

/-! ## Blocking XREAD (src/data/mod.rs) -/

/-- Event-matching test shared by the two blocking readers
(src/data/mod.rs lines 683-691 and 744-752). -/
def xadd_event_matches (read_command_streams : List XReadCommandStream)
    (xadd : XAddTransmission) : Bool :=
  read_command_streams.any fun s =>
    s.key = xadd.key &&
      stream_entry_greater_than_start xadd.ms_time xadd.sequence_number s.start

/-- src/data/mod.rs `read_streams_until_xadd`: wait for the first matching
event.  `incoming` lists the events the subscriber receives; its exhaustion
models the receive error of a closed channel (otherwise the task would
await forever). -/
def read_streams_until_xadd (read_command_streams : List XReadCommandStream) :
    List XAddTransmission → Except String String
  | [] => .error "channel closed"
  | xadd :: rest =>
    if xadd_event_matches read_command_streams xadd then
      .ok (encode_streams [(xadd.key, [⟨xadd.data, xadd.ms_time, xadd.sequence_number⟩])])
    else read_streams_until_xadd read_command_streams rest

/-- Group accumulation of src/data/mod.rs `read_streams_after_limited_wait`
(lines 693-710): append to an existing group or push a new one. -/
def add_event (streams : List (String × List InnerRedisStream))
    (xadd : XAddTransmission) : List (String × List InnerRedisStream) :=
  match streams with
  | [] => [(xadd.key, [⟨xadd.data, xadd.ms_time, xadd.sequence_number⟩])]
  | (k, entries) :: rest =>
    if k = xadd.key then (k, entries ++ [⟨xadd.data, xadd.ms_time, xadd.sequence_number⟩]) :: rest
    else (k, entries) :: add_event rest xadd

/-- src/data/mod.rs `read_streams_after_limited_wait`: accumulate the
matching events received inside the window (`incoming`, timing abstracted),
then reply null when nothing accumulated. -/
def read_streams_after_limited_wait (read_command_streams : List XReadCommandStream)
    (incoming : List XAddTransmission) : Except String String :=
  let streams := incoming.foldl
    (fun acc xadd => if xadd_event_matches read_command_streams xadd then add_event acc xadd else acc)
    []
  .ok (if streams.isEmpty then empty_string else encode_streams streams)

/-- src/data/mod.rs `Database::read_from_streams` (XREAD). -/
def read_from_streams (db : Db) (block : Option XReadBlock)
    (read_command_streams : List XReadCommandStream)
    (incoming : List XAddTransmission) : Except String String :=
  match block with
  | none => read_streams_sync db read_command_streams
  | some .Unlimited => read_streams_until_xadd read_command_streams incoming
  | some (.Limited _) => read_streams_after_limited_wait read_command_streams incoming

/-! ## Dispatcher and connection handler (src/stream.rs) -/

/-- src/stream.rs `CommandType`. -/
inductive CommandType where
  | Psync
  | ToReplicate
  | Other
deriving Repr, DecidableEq

/-- src/stream.rs lines 40-44: the classification match in `handle_stream`. -/
def command_type : Command → CommandType
  | .Get _ => .ToReplicate
  | .Set _ => .ToReplicate
  | .Psync _ _ => .Psync
  | _ => .Other

/-- Result of one dispatch: the replies, the updated map and server state,
and the stream events published. -/
structure DispatchResult where
  responses : List String
  db : Db
  server : ServerState
  events : List XAddTransmission
deriving Repr

/-- The command execution match of src/stream.rs `handle_stream` (lines
49-87), with the executors of src/commands.rs inlined where they only wrap
a database call in reply encoding.  `Except.error` is an executor that
returned `Err` (propagated by the trailing question mark operator). -/
def dispatch (db : Db) (server : ServerState) (request : Command)
    (now fresh : Nat) (incoming : List XAddTransmission)
    (elapsed_after : Nat → Nat) : Except String DispatchResult :=
  match request with
  | .Ping body => .ok ⟨pong body, db, server, []⟩
  | .Echo body => .ok ⟨[bulk_string body], db, server, []⟩
  | .Get key => .ok ⟨cmd_get_value db key, db, server, []⟩
  | .Set c =>
    let r := set_value db c.key c.value c.get_old_value c.overwrite c.expires fresh
    let response := match r.result with
      | .ok v => v
      | .error e => error_string e
    .ok ⟨[response], r.db, server, []⟩
  | .Del keys =>
    let r := remove_multiple db keys
    .ok ⟨[encode_integer (r.2.1 : Int)], r.1, server, []⟩
  | .GetDel key =>
    let r := get_remove db key
    let response := match r.result with
      | .ok (some v) => v
      | .ok none => empty_string
      | .error e => error_string e
    .ok ⟨[response], r.db, server, []⟩
  | .GetEx key expiry =>
    let r := update_expiration db key expiry fresh
    let response := match r.result with
      | .ok v => v
      | .error e => error_string e
    .ok ⟨[response], r.db, server, []⟩
  | .Info => .ok ⟨get_info server, db, server, []⟩
  | .ReplConf repl => .ok ⟨replica_confirm repl 0, db, server, []⟩
  | .Psync _ _ => .ok ⟨perform_psync server, db, server, []⟩
  | .Wait num_replicas timeout =>
    match perform_wait server num_replicas timeout elapsed_after with
    | .error e => .error e
    | .ok r => .ok ⟨[encode_integer (r.2.1 : Int)], db, r.1, []⟩
  | .Config c => .ok ⟨view_config server c, db, server, []⟩
  | .Keys _ => .ok ⟨[encode_string_array (db.map Prod.fst)], db, server, []⟩
  | .Type_ key =>
    let response := match dbGet db key with
      | some item => item.data_type
      | none => bulk_string "none"
    .ok ⟨[response], db, server, []⟩
  | .Xadd c =>
    let r := add_stream db c now
    let response := match r.result with
      | .ok stream_id => bulk_string stream_id
      | .error e => error_string e
    .ok ⟨[response], r.db, server, r.events⟩
  | .Xrange c =>
    match read_from_stream db c.key c.start c.ending with
    | .error e => .error e
    | .ok s => .ok ⟨[s], db, server, []⟩
  | .Xread c =>
    match read_from_streams db c.block c.streams incoming with
    | .error e => .error e
    | .ok s => .ok ⟨[s], db, server, []⟩
  | .Incr key =>
    let r := adjust_value_by_int db key 1
    let response := match r.result with
      | .ok v => v
      | .error e => error_string e
    .ok ⟨[response], r.db, server, []⟩
  | .IncrBy key amount =>
    let r := adjust_value_by_int db key amount
    let response := match r.result with
      | .ok v => v
      | .error e => error_string e
    .ok ⟨[response], r.db, server, []⟩
  | .IncrByFloat key amount =>
    let r := adjust_value_by_float db key amount
    let response := match r.result with
      | .ok v => v
      | .error e => error_string e
    .ok ⟨[response], r.db, server, []⟩
  | .Decr key =>
    let r := adjust_value_by_int db key (-1)
    let response := match r.result with
      | .ok v => v
      | .error e => error_string e
    .ok ⟨[response], r.db, server, []⟩
  | .DecrBy key amount =>
    let r := adjust_value_by_int db key (-amount)
    let response := match r.result with
      | .ok v => v
      | .error e => error_string e
    .ok ⟨[response], r.db, server, []⟩

/-- Outcome of one iteration of the `handle_stream` loop: `closed` is the
handler returning `Err` (the connection terminates with no reply written
for the failing command); `continued` carries the replies written and the
new state; `promoted` is the PSYNC hand-off of the connection to the
replica set (the handler returns `Ok`). -/
inductive StepOutcome where
  | closed (err : String)
  | continued (responses : List String) (db : Db) (server : ServerState)
      (events : List XAddTransmission)
  | promoted (responses : List String) (db : Db) (server : ServerState)
deriving Repr

/-- One iteration of src/stream.rs `handle_stream` (lines 26-98): read
bytes, split lines, parse (a parse failure propagates and closes the
connection), execute, write replies, then continue, replicate, or attach. -/
def handle_stream_step (db : Db) (server : ServerState) (raw_bytes : String)
    (now fresh : Nat) (incoming : List XAddTransmission)
    (elapsed_after : Nat → Nat) : StepOutcome :=
  let raw_request := rust_lines raw_bytes
  match parse_request raw_request now with
  | .error e => .closed e
  | .ok request =>
    let ctype := command_type request
    match dispatch db server request now fresh incoming elapsed_after with
    | .error e => .closed e
    | .ok r =>
      match ctype with
      | .Other => .continued r.responses r.db r.server r.events
      | .ToReplicate =>
        match replicate_command r.server raw_bytes now with
        | .error e => .closed e
        | .ok server' => .continued r.responses r.db server' r.events
      | .Psync => .promoted r.responses r.db (add_replica r.server)

/-! ## Claim-side notions and helper lemmas -/

/-- Strict order on stream entry identifiers: lexicographic on (ms, seq). -/
def entry_id_lt (a b : InnerRedisStream) : Prop :=
  a.ms_time < b.ms_time ∨ (a.ms_time = b.ms_time ∧ a.sequence_number < b.sequence_number)

instance (a b : InnerRedisStream) : Decidable (entry_id_lt a b) := by
  unfold entry_id_lt
  exact inferInstance

instance : DecidableRel entry_id_lt := fun _ _ => inferInstance

/-- Entry identifiers are strictly increasing along the log. -/
def strictly_ascending (l : List InnerRedisStream) : Prop := l.Chain' entry_id_lt

/-- The entry log held at a key (empty for absent keys and string values). -/
def entries_at (db : Db) (key : String) : List InnerRedisStream :=
  match dbGet db key with
  | some (.stream entries) => entries
  | _ => []

theorem xrange_loop_unspecified (b : Bool) :
    ∀ l : List InnerRedisStream, xrange_loop .Unspecified .Unspecified b l = l := by
  intro l
  induction l generalizing b with
  | nil => rfl
  | cons entry rest ih => cases b <;> simp [xrange_loop, ih]

theorem string_data_append (a b : String) : (a ++ b).data = a.data ++ b.data := rfl

theorem string_ext' (a b : String) (h : a.data = b.data) : a = b := by
  cases a
  cases b
  exact congrArg String.mk (by simpa using h)

theorem string_append_assoc (a b c : String) : a ++ b ++ c = a ++ (b ++ c) := by
  apply string_ext'
  simp [string_data_append]

theorem foldl_append_star {α : Type} (g : α → String) :
    ∀ (l : List α) (t : String),
      ∃ u, l.foldl (fun acc item => acc ++ g item) ("*" ++ t) = "*" ++ u := by
  intro l
  induction l with
  | nil => exact fun t => ⟨t, rfl⟩
  | cons x xs ih =>
    intro t
    have h := ih (t ++ g x)
    simpa [List.foldl_cons, string_append_assoc] using h

theorem foldl_star_ne_empty {α : Type} (g : α → String) (l : List α) (t : String) :
    l.foldl (fun acc item => acc ++ g item) ("*" ++ t) ≠ empty_string := by
  obtain ⟨u, hu⟩ := foldl_append_star g l t
  rw [hu]
  intro h
  have hd := congrArg String.data h
  rw [string_data_append] at hd
  injection hd with h1 _
  exact absurd h1 (by decide)

theorem encode_streams_cons_ne_empty (x : String × List InnerRedisStream)
    (l : List (String × List InnerRedisStream)) :
    encode_streams (x :: l) ≠ empty_string := by
  have h : encode_array_length (x :: l).length = "*" ++ (toString (x :: l).length ++ "\r\n") :=
    rfl
  unfold encode_streams
  rw [h]
  exact foldl_star_ne_empty _ _ _

/-! ## C2 -/

/-- The sequence auto-generation rule in the spec's words (refinement
comparison for claim C2): when the stream's latest entry is (lms, lseq) and
the new millisecond part is ms, seq is 0 if lms < ms, else lseq + 1, and a
still-(0,0) result is promoted to sequence 1. -/
def xadd_auto_seq_from_spec (ms lms lseq : Nat) : Nat :=
  let seq := if lms < ms then 0 else lseq + 1
  if ms = 0 ∧ seq = 0 then 1 else seq

/-- C2 (code bug): with latest entry id 100-1 and XADD id `100-*`, the code
generates sequence 1 (the else branch of `determine_sequence_number` is the
constant 1, not lseq + 1 as the spec states), so the XADD is rejected as
not greater than the top item, where the spec mandates sequence 2 and a
successful append. -/
theorem determine_sequence_number_is_constant_one :
    determine_sequence_number .Autogenerate 100 ⟨[], 100, 1⟩ = 1 ∧
    xadd_auto_seq_from_spec 100 100 1 = 2 ∧
    (add_stream [("cool", .stream [⟨[], 100, 1⟩])]
        ⟨"cool", .Predetermined 100, .Autogenerate, [⟨"one", "two"⟩]⟩ 0).result =
      .error "ERR The ID specified in XADD is equal or smaller than the target stream top item" :=
  ⟨rfl, rfl, rfl⟩

/-! ## C3 -/

/-- C3 counterexample: DEL is classified Other by the handler, not
ToReplicate as the claim states. -/
theorem command_type_del_is_other :
    command_type (.Del ["k"]) = .Other ∧ CommandType.Other ≠ CommandType.ToReplicate :=
  ⟨rfl, by decide⟩

/-- C3 (amended): the handler classifies a command ToReplicate exactly when
it is GET or SET; PSYNC is Psync; every other command (DEL, GETDEL, GETEX,
the INCR/DECR family, XADD included) is Other. -/
theorem command_type_characterization (c : Command) :
    (command_type c = .ToReplicate ↔ ((∃ k, c = .Get k) ∨ ∃ sc, c = .Set sc)) ∧
    (command_type c = .Psync ↔ ∃ id off, c = .Psync id off) ∧
    (command_type c = .Other ↔
      ¬((∃ k, c = .Get k) ∨ (∃ sc, c = .Set sc) ∨ ∃ id off, c = .Psync id off)) := by
  cases c <;> simp [command_type]

/-! ## C7 -/

/-- C7 counterexample: a stream that exists but contributes zero matching
entries still produces a non-null aggregated reply (an empty group), where
the claim demands null. -/
theorem xread_sync_empty_contribution_not_null :
    xread_collect (.Specified 1 1) false [⟨[⟨"a", "b"⟩], 1, 1⟩] = [] ∧
    read_streams_sync [("s", .stream [⟨[⟨"a", "b"⟩], 1, 1⟩])] [⟨"s", .Specified 1 1⟩] =
      .ok "*1\r\n*2\r\n$1\r\ns\r\n*0\r\n" ∧
    ("*1\r\n*2\r\n$1\r\ns\r\n*0\r\n" : String) ≠ empty_string := by
  refine ⟨rfl, rfl, by decide⟩

/-- C7 (amended): the non-blocking XREAD reply is null exactly when no
requested key is present in the map at all; requested keys that exist as
streams contribute a group even when it is empty, and a present non-stream
value aborts the read with WRONGTYPE. -/
theorem read_streams_sync_null_iff (db : Db) (reqs : List XReadCommandStream) :
    read_streams_sync db reqs = .ok empty_string ↔
      ∀ r ∈ reqs, dbGet db r.key = none := by
  induction reqs with
  | nil => simp [read_streams_sync, collect_streams]
  | cons r rest ih =>
    unfold read_streams_sync at ih ⊢
    cases hget : dbGet db r.key with
    | none =>
      simp only [collect_streams, hget]
      rw [ih]
      simp [hget]
    | some item =>
      cases item with
      | string s =>
        simp [collect_streams, hget]
      | stream entries =>
        simp only [collect_streams, hget]
        cases htail : collect_streams db rest with
        | error e => simp [hget]
        | ok tail =>
          simp only [List.isEmpty_cons]
          constructor
          · intro h
            exact absurd (by injection h) (encode_streams_cons_ne_empty _ _)
          · intro h
            have := h r (by simp)
            simp [hget] at this

/-! ## C8 -/

/-- C8 counterexample: GETEX with the Keep expiration aborts the scheduled
deletion task and schedules nothing, where the claim demands a no-op that
leaves the task running. -/
theorem getex_keep_aborts_task :
    (update_expiration [("k", .string ⟨"v", some 99, some 5⟩)] "k" .Other 11).aborted = [5] ∧
    (update_expiration [("k", .string ⟨"v", some 99, some 5⟩)] "k" .Other 11).spawned = [] ∧
    dbGet (update_expiration [("k", .string ⟨"v", some 99, some 5⟩)] "k" .Other 11).db "k" =
      some (.string ⟨"v", some 99, none⟩) :=
  ⟨rfl, rfl, rfl⟩

/-- C8 (amended): GETEX returns the stored bytes unchanged and only touches
the expiration scheduling; None and Keep behave identically, both aborting
any scheduled deletion task and scheduling nothing (clearing the deadline);
Duration d aborts the old task and schedules a new deletion after d. -/
theorem getex_expiration_semantics (db : Db) (key : String) (item : RedisString)
    (fresh d : Nat) (h : dbGet db key = some (.string item)) :
    update_expiration db key .Other fresh = update_expiration db key .None fresh ∧
    (update_expiration db key .None fresh).result = .ok (bulk_string item.data) ∧
    (update_expiration db key .None fresh).aborted = item.cancellation_process.toList ∧
    (update_expiration db key .None fresh).spawned = [] ∧
    dbGet (update_expiration db key .None fresh).db key =
      some (.string ⟨item.data, item.duration, none⟩) ∧
    (update_expiration db key (.Expiry d) fresh).result = .ok (bulk_string item.data) ∧
    (update_expiration db key (.Expiry d) fresh).aborted = item.cancellation_process.toList ∧
    (update_expiration db key (.Expiry d) fresh).spawned = [(fresh, d)] ∧
    dbGet (update_expiration db key (.Expiry d) fresh).db key =
      some (.string ⟨item.data, item.duration, some fresh⟩) := by
  unfold update_expiration
  simp [h, dbGet_dbInsert_self]

/-- Witness for the amended C8 theorem at a concrete store. -/
theorem getex_expiration_semantics_witness :
    dbGet [("k", DatabaseItem.string ⟨"v", some 9, some 3⟩)] "k" =
      some (.string ⟨"v", some 9, some 3⟩) ∧
    update_expiration [("k", DatabaseItem.string ⟨"v", some 9, some 3⟩)] "k" .Other 4 =
      update_expiration [("k", DatabaseItem.string ⟨"v", some 9, some 3⟩)] "k" .None 4 :=
  ⟨rfl,
    (getex_expiration_semantics [("k", DatabaseItem.string ⟨"v", some 9, some 3⟩)] "k"
      ⟨"v", some 9, some 3⟩ 4 0 rfl).1⟩

/-! ## C5 -/

/-- C5 counterexample: INCR on a key whose string value has a pending
deletion task mutates the stored bytes in place and aborts nothing — the
task (id 7) is still attached after the mutation. -/
theorem incr_mutates_without_abort :
    (adjust_value_by_int [("k", .string ⟨"5", some 50, some 7⟩)] "k" 1).aborted = [] ∧
    dbGet (adjust_value_by_int [("k", .string ⟨"5", some 50, some 7⟩)] "k" 1).db "k" =
      some (.string ⟨"6", some 50, some 7⟩) := by
  refine ⟨by decide, by decide⟩

/-- C5 (amended): the paths that replace or remove a string value — SET
(`set_value`), GETDEL (`get_remove`), GETEX (`update_expiration`) and DEL
(`remove_multiple`) — abort the pending deletion task first; the
INCR/INCRBY/INCRBYFLOAT/DECR/DECRBY paths (`adjust_value_by_int`,
`adjust_value_by_float`) mutate the stored bytes in place without aborting
the pending task; the snapshot loader inserts with `set_item`, which aborts
nothing (no deletion task exists during load). -/
theorem deletion_task_abort_paths (db : Db) (key value : String) (item : RedisString)
    (t fresh : Nat) (expires : CommandExpiration) (adjustment : Int) (famount : Float)
    (h : dbGet db key = some (.string item))
    (ht : item.cancellation_process = some t) :
    (set_value db key value false .Normal expires fresh).aborted = [t] ∧
    (get_remove db key).aborted = [t] ∧
    (update_expiration db key expires fresh).aborted = [t] ∧
    (remove_multiple db [key]).2.2 = [t] ∧
    (adjust_value_by_int db key adjustment).aborted = [] ∧
    (adjust_value_by_float db key famount).aborted = [] := by
  refine ⟨?_, ?_, ?_, ?_, ?_, ?_⟩
  · unfold set_value
    cases expires <;> simp [h, ht]
  · unfold get_remove
    simp [h, ht]
  · unfold update_expiration
    cases expires <;> simp [h, ht]
  · unfold remove_multiple
    simp [h, ht, remove_multiple]
  · unfold adjust_value_by_int
    simp only [h]
    split <;> simp
  · unfold adjust_value_by_float
    simp only [h]
    split <;> simp

/-- Witness for the amended C5 theorem at a concrete store. -/
theorem deletion_task_abort_paths_witness :
    dbGet [("k", DatabaseItem.string ⟨"5", some 50, some 7⟩)] "k" =
      some (.string ⟨"5", some 50, some 7⟩) ∧
    (set_value [("k", DatabaseItem.string ⟨"5", some 50, some 7⟩)] "k" "x" false .Normal
      .None 9).aborted = [7] ∧
    (adjust_value_by_int [("k", DatabaseItem.string ⟨"5", some 50, some 7⟩)] "k" 2).aborted = [] :=
  ⟨rfl,
    (deletion_task_abort_paths [("k", DatabaseItem.string ⟨"5", some 50, some 7⟩)] "k" "x"
      ⟨"5", some 50, some 7⟩ 7 9 .None 2 1.5 rfl rfl).1,
    (deletion_task_abort_paths [("k", DatabaseItem.string ⟨"5", some 50, some 7⟩)] "k" "x"
      ⟨"5", some 50, some 7⟩ 7 9 .None 2 1.5 rfl rfl).2.2.2.2.1⟩

/-! ## C10 -/

/-- C10: an XADD that returns an error — id (0,0), id not greater than the
stream's latest id, missing log invariant, or a wrong value kind at the
key — publishes no StreamAppendEvent on the notification bus. -/
theorem xadd_error_publishes_no_event (db : Db) (command : XAddCommand) (now : Nat)
    (e : String) (h : (add_stream db command now).result = .error e) :
    (add_stream db command now).events = [] := by
  revert h
  unfold add_stream
  dsimp only
  repeat' split
  all_goals intro h
  all_goals simp_all

/-- Witness for the C10 theorem: XADD of 0-0 on a fresh stream errors and
publishes nothing. -/
theorem xadd_error_publishes_no_event_witness :
    (add_stream [] ⟨"s", .Predetermined 0, .Predetermined 0, []⟩ 3).result =
      .error "ERR The ID specified in XADD must be greater than 0-0" ∧
    (add_stream [] ⟨"s", .Predetermined 0, .Predetermined 0, []⟩ 3).events = [] :=
  ⟨rfl, xadd_error_publishes_no_event [] ⟨"s", .Predetermined 0, .Predetermined 0, []⟩ 3 _ rfl⟩

/-! ## C9 -/

theorem read_line_eq_none_iff (buf : List Nat) :
    read_line buf = none ↔ ¬ 13 ∈ buf := by
  induction buf with
  | nil => simp [read_line]
  | cons b rest ih =>
    by_cases hb : b = 13
    · simp [read_line, hb]
    · cases hr : read_line rest with
      | none => simp [read_line, hb, hr, ← ih, Ne.symm hb]
      | some p => simp [read_line, hb, hr, ← ih, Ne.symm hb]

/-- C9 counterexample: the buffer `*1\r\n$3\r\nab` is a partial input (the
length line announces one element, but the element lines are incomplete),
yet `read_frame` returns an error, not the need-more-data outcome. -/
theorem read_frame_partial_inner_is_error :
    read_line [42, 49, 13, 10, 36, 51, 13, 10, 97, 98] = some ([42, 49], 4) ∧
    read_lines 2 (List.drop 4 [42, 49, 13, 10, 36, 51, 13, 10, 97, 98]) = none ∧
    read_frame [42, 49, 13, 10, 36, 51, 13, 10, 97, 98] = .error () ∧
    read_frame [42, 49, 13, 10, 36, 51, 13, 10, 97, 98] ≠ .ok none := by
  refine ⟨rfl, rfl, rfl, ?_⟩
  intro hc
  exact Except.noConfusion
    ((rfl :
      (Except.error () : Except Unit (Option RFrame)) =
        read_frame [42, 49, 13, 10, 36, 51, 13, 10, 97, 98]).trans hc)

/-- C9 (amended): the decoder reports need-more-data exactly when the first
(length) line is incomplete, that is, when the buffer holds no CR byte yet;
a partial input whose length line is complete but whose 2n element lines
are not all present yields an error instead (and consumed cursor bytes are
not restored in either case). -/
theorem read_frame_need_more_data_iff (buf : List Nat) :
    (read_frame buf = .ok none ↔ ¬ 13 ∈ buf) ∧
    (∀ size_line n1 sz, read_line buf = some (size_line, n1) →
      parse_digits ((size_line.drop 1).map (Char.ofNat ·)) = some sz →
      sz < 2 ^ 64 →
      read_lines (sz * 2) (buf.drop n1) = none →
      read_frame buf = .error ()) := by
  constructor
  · rw [← read_line_eq_none_iff]
    unfold read_frame
    cases hr : read_line buf with
    | none => simp
    | some p =>
      simp only [hr]
      constructor
      · intro h
        split at h
        · simp at h
        · split at h
          · split at h <;> simp at h
          · simp at h
      · intro h
        simp at h
  · intro size_line n1 sz h1 h2 h3 h4
    unfold read_frame
    simp only [h1, h2, h4]
    rw [if_pos h3]

/-- Witness for the amended C9 theorem: the buffer `*1\r\n$1\r\nx` (element
payload line unterminated) makes the second part fire. -/
theorem read_frame_need_more_data_iff_witness :
    read_line [42, 49, 13, 10, 36, 49, 13, 10, 120] = some ([42, 49], 4) ∧
    read_frame [42, 49, 13, 10, 36, 49, 13, 10, 120] = .error () := by
  refine ⟨rfl, ?_⟩
  exact (read_frame_need_more_data_iff [42, 49, 13, 10, 36, 49, 13, 10, 120]).2
    [42, 49] 4 1 rfl rfl (by decide) rfl

/-! ## C4 -/

/-- C4 counterexample: a Primary with three replicas and a recent-writes
counter of 1 sends three GETACKs but WAIT returns 1, not the count of
attempted sends. -/
theorem perform_wait_ignores_send_count :
    perform_wait ⟨.Master 3 0 1, "id", 0, none, none⟩ 1 500 (fun _ => 0) =
      .ok (⟨.Master 3 37 1, "id", 0, none, none⟩, 1, 3, 500) ∧
    (1 : Nat) ≠ 3 :=
  ⟨rfl, by decide⟩

theorem wait_loop_all_sent (timeout : Nat) (elapsed_after : Nat → Nat)
    (htime : ∀ k, elapsed_after k < timeout) :
    ∀ n sent elapsed, elapsed < timeout →
      (wait_loop timeout elapsed_after n sent elapsed).1 = sent + n := by
  intro n
  induction n with
  | zero => intro sent elapsed _; simp [wait_loop]
  | succ m ih =>
    intro sent elapsed he
    unfold wait_loop
    rw [if_neg (by omega)]
    rw [ih (sent + 1) (elapsed_after sent) (htime sent)]
    omega

/-- C4 (amended): WAIT with a positive replica requirement broadcasts
REPLCONF GETACK * to the replicas in order (all of them when every elapsed
measurement stays below the timeout), advances the Primary's byte counter
by the GETACK frame length once, and returns a value derived from the
recent-writes counter — the number of replicas when the counter is 0, 1
when it is 1, and replicas − 1 otherwise — rather than the count of
attempted sends; the remaining timeout is slept before returning. -/
theorem perform_wait_semantics (st : ServerState)
    (replicas byte_offset num_sets num_replicas timeout : Nat)
    (elapsed_after : Nat → Nat)
    (hrole : st.role = .Master replicas byte_offset num_sets)
    (hn : 0 < num_replicas) (ht0 : 0 < timeout)
    (htime : ∀ k, elapsed_after k < timeout) :
    ∃ st' ret sends slept,
      perform_wait st num_replicas timeout elapsed_after = .ok (st', ret, sends, slept) ∧
      st'.role = .Master replicas (byte_offset + get_ack.utf8ByteSize) num_sets ∧
      sends = replicas ∧
      ret = (if num_sets = 0 then replicas else if num_sets = 1 then 1 else replicas - 1) := by
  obtain ⟨role, rid, roff, dr, dbf⟩ := st
  simp only at hrole
  subst hrole
  unfold perform_wait
  dsimp only
  rw [if_neg (by omega)]
  refine ⟨_, _, _, _, rfl, rfl, ?_, ?_⟩
  · simpa using wait_loop_all_sent timeout elapsed_after htime replicas 0 0 ht0
  · rcases num_sets with _ | _ | n <;> simp

/-- Witness for the amended C4 theorem at a concrete Primary. -/
theorem perform_wait_semantics_witness :
    (⟨.Master 2 5 0, "rid", 0, none, none⟩ : ServerState).role = .Master 2 5 0 ∧
    (∃ st' ret sends slept,
      perform_wait ⟨.Master 2 5 0, "rid", 0, none, none⟩ 1 100 (fun _ => 1) =
        .ok (st', ret, sends, slept) ∧
      st'.role = .Master 2 (5 + get_ack.utf8ByteSize) 0 ∧
      sends = 2 ∧
      ret = 2) :=
  ⟨rfl,
    perform_wait_semantics ⟨.Master 2 5 0, "rid", 0, none, none⟩ 2 5 0 1 100 (fun _ => 1)
      rfl (by decide) (by decide) (fun _ => show (1 : Nat) < 100 by decide)⟩

/-! ## C6 -/

/-- C6 counterexample: an unknown command closes the connection (the parse
error propagates out of the handler) instead of being converted to an
error reply with the connection continuing. -/
theorem unknown_command_closes_connection :
    handle_stream_step [] ⟨.Master 0 0 0, "id", 0, none, none⟩
        "*1\r\n$8\r\nFLUSHALL\r\n" 0 0 [] (fun _ => 0) =
      .closed "unknown command: FLUSHALL" := by
  rfl

/-- C6 (amended): a malformed or unknown command makes `parse_request`
fail, and the handler then closes the connection without writing any
reply; a typed error raised inside an executor that catches it (here GET on
a stream-valued key) is converted to an error reply and the connection
continues. -/
theorem handler_error_policy :
    (∀ (db : Db) (server : ServerState) (raw : String) (now fresh : Nat)
        (incoming : List XAddTransmission) (elapsed_after : Nat → Nat) (e : String),
        parse_request (rust_lines raw) now = .error e →
        handle_stream_step db server raw now fresh incoming elapsed_after = .closed e) ∧
    (∀ (db : Db) (server : ServerState) (now fresh : Nat)
        (incoming : List XAddTransmission) (elapsed_after : Nat → Nat)
        (entries : List InnerRedisStream),
        dbGet db "k" = some (.stream entries) →
        ∃ server',
          handle_stream_step db server "*2\r\n$3\r\nGET\r\n$1\r\nk\r\n"
              now fresh incoming elapsed_after =
            .continued [error_string wrong_type_str] db server' []) := by
  constructor
  · intro db server raw now fresh incoming elapsed_after e he
    unfold handle_stream_step
    dsimp only
    rw [he]
  · intro db server now fresh incoming elapsed_after entries hget
    have hparse :
        parse_request (rust_lines "*2\r\n$3\r\nGET\r\n$1\r\nk\r\n") now = .ok (.Get "k") := rfl
    unfold handle_stream_step
    dsimp only
    rw [hparse]
    simp only [dispatch, cmd_get_value, database_get, hget, command_type]
    unfold replicate_command
    cases hrole : server.role with
    | Slave => exact ⟨server, rfl⟩
    | Master replicas byte_offset num_sets =>
      rw [(rfl :
        parse_request (rust_lines "*2\r\n$3\r\nGET\r\n$1\r\nk\r\n") now = .ok (.Get "k"))]
      exact ⟨_, rfl⟩

/-- Witness for the amended C6 theorem: an unknown keyword closes the
connection, a GET against a stream value answers with the WRONGTYPE error
reply and continues. -/
theorem handler_error_policy_witness :
    parse_request (rust_lines "*1\r\n$9\r\nSUBSCRIBE\r\n") 0 =
      .error "unknown command: SUBSCRIBE" ∧
    handle_stream_step [("x", .string ⟨"v", none, none⟩)] ⟨.Slave, "id", 0, none, none⟩
        "*1\r\n$9\r\nSUBSCRIBE\r\n" 0 0 [] (fun _ => 0) =
      .closed "unknown command: SUBSCRIBE" ∧
    dbGet [("k", DatabaseItem.stream [⟨[], 3, 4⟩])] "k" = some (.stream [⟨[], 3, 4⟩]) ∧
    ∃ server',
      handle_stream_step [("k", DatabaseItem.stream [⟨[], 3, 4⟩])] ⟨.Slave, "id", 0, none, none⟩
          "*2\r\n$3\r\nGET\r\n$1\r\nk\r\n" 0 0 [] (fun _ => 0) =
        .continued [error_string wrong_type_str] [("k", DatabaseItem.stream [⟨[], 3, 4⟩])]
          server' [] :=
  ⟨rfl,
    handler_error_policy.1 [("x", .string ⟨"v", none, none⟩)] ⟨.Slave, "id", 0, none, none⟩
      "*1\r\n$9\r\nSUBSCRIBE\r\n" 0 0 [] (fun _ => 0) "unknown command: SUBSCRIBE" rfl,
    rfl,
    handler_error_policy.2 [("k", DatabaseItem.stream [⟨[], 3, 4⟩])] ⟨.Slave, "id", 0, none, none⟩
      0 0 [] (fun _ => 0) [⟨[], 3, 4⟩] rfl⟩

/-! ## C1 -/

/-- C1: entry ids in a stream are strictly increasing in lexicographic
order on (ms, seq): an XADD preserves the order; an XADD whose computed id
is not greater than the stream's latest id returns an error and leaves the
map unchanged; and `XRANGE - +` traverses the stored log unchanged, so the
ids it returns are strictly increasing. -/
theorem xadd_monotone_ids (db : Db) (command : XAddCommand) (now : Nat)
    (hsorted : strictly_ascending (entries_at db command.stream_key)) :
    strictly_ascending (entries_at (add_stream db command now).db command.stream_key) ∧
    (∀ latest, (entries_at db command.stream_key).getLast? = some latest →
      ¬ entry_id_lt latest
          ⟨command.data, resolve_ms command now,
            determine_sequence_number command.sequence_number (resolve_ms command now) latest⟩ →
      (∃ e, (add_stream db command now).result = .error e) ∧
        (add_stream db command now).db = db) ∧
    xrange_loop .Unspecified .Unspecified false
        (entries_at (add_stream db command now).db command.stream_key) =
      entries_at (add_stream db command now).db command.stream_key := by
  refine ⟨?_, ?_, xrange_loop_unspecified false _⟩
  · unfold add_stream
    dsimp only
    cases hget : dbGet db command.stream_key with
    | none =>
      simp only [hget]
      split_ifs with h0
      · simpa [entries_at, hget] using hsorted
      · simp [entries_at, dbGet_dbInsert_self, strictly_ascending]
    | some item =>
      cases item with
      | string s =>
        simp only [hget]
        simpa [entries_at, hget] using hsorted
      | stream entries =>
        simp only [hget]
        cases hlast : entries.getLast? with
        | none => simpa [entries_at, hget] using hsorted
        | some latest =>
          dsimp only
          have hentries : entries_at db command.stream_key = entries := by
            simp [entries_at, hget]
          rw [hentries] at hsorted
          set ms := resolve_ms command now with hms
          set seq := determine_sequence_number command.sequence_number ms latest with hseq
          by_cases h0 : ms = 0 ∧ seq = 0
          · rw [if_pos h0]
            simpa [entries_at, hget] using hsorted
          · rw [if_neg h0]
            by_cases h1 : ms < latest.ms_time
            · rw [if_pos h1]
              simp only [Bool.false_eq_true, if_false]
              simpa [entries_at, hget] using hsorted
            · rw [if_neg h1]
              by_cases h2 : ms = latest.ms_time
              · rw [if_pos h2]
                by_cases h3 : seq > latest.sequence_number
                · rw [if_pos (decide_eq_true h3)]
                  simp only [entries_at, dbGet_dbInsert_self]
                  refine (List.chain'_append).2 ⟨hsorted, List.chain'_singleton _, ?_⟩
                  intro x hx y hy
                  rw [hlast] at hx
                  simp at hx hy
                  subst hx
                  subst hy
                  exact Or.inr ⟨h2.symm, h3⟩
                · rw [if_neg (show ¬ decide (seq > latest.sequence_number) = true by
                    simpa using h3)]
                  simpa [entries_at, hget] using hsorted
              · rw [if_neg h2]
                rw [if_pos rfl]
                simp only [entries_at, dbGet_dbInsert_self]
                refine (List.chain'_append).2 ⟨hsorted, List.chain'_singleton _, ?_⟩
                intro x hx y hy
                rw [hlast] at hx
                simp at hx hy
                subst hx
                subst hy
                exact Or.inl (show latest.ms_time < ms by omega)
  · intro latest hlast hnlt
    have hcases : ∃ entries, dbGet db command.stream_key = some (.stream entries) ∧
        entries.getLast? = some latest := by
      unfold entries_at at hlast
      cases hget : dbGet db command.stream_key with
      | none => rw [hget] at hlast; simp at hlast
      | some item =>
        cases item with
        | string s => rw [hget] at hlast; simp at hlast
        | stream entries => exact ⟨entries, rfl, by rw [hget] at hlast; simpa using hlast⟩
    obtain ⟨entries, hget, hlastE⟩ := hcases
    simp only [entry_id_lt, not_or, not_and] at hnlt
    unfold add_stream
    dsimp only
    simp only [hget, hlastE]
    set ms := resolve_ms command now with hms
    set seq := determine_sequence_number command.sequence_number ms latest with hseq
    by_cases h0 : ms = 0 ∧ seq = 0
    · rw [if_pos h0]
      exact ⟨⟨_, rfl⟩, by trivial⟩
    · rw [if_neg h0]
      have hok :
          (if ms < latest.ms_time then false
           else if ms = latest.ms_time then decide (seq > latest.sequence_number)
           else true) = false := by
        by_cases h1 : ms < latest.ms_time
        · rw [if_pos h1]
        · rw [if_neg h1]
          by_cases h2 : ms = latest.ms_time
          · rw [if_pos h2]
            have hseqle : ¬ latest.sequence_number < seq := hnlt.2 h2.symm
            simpa using hseqle
          · exact absurd (by omega : latest.ms_time < ms) hnlt.1
      rw [hok]
      simp only [Bool.false_eq_true, if_false]
      exact ⟨⟨_, rfl⟩, by trivial⟩

/-- Witness for the C1 theorem: appending 2-2 after 1-1 keeps the log
strictly ascending. -/
theorem xadd_monotone_ids_witness :
    strictly_ascending (entries_at [("s", DatabaseItem.stream [⟨[], 1, 1⟩])] "s") ∧
    strictly_ascending
      (entries_at (add_stream [("s", DatabaseItem.stream [⟨[], 1, 1⟩])]
          ⟨"s", .Predetermined 2, .Predetermined 2, []⟩ 0).db "s") :=
  ⟨show strictly_ascending [⟨[], 1, 1⟩] from List.chain'_singleton _,
    (xadd_monotone_ids [("s", DatabaseItem.stream [⟨[], 1, 1⟩])]
        ⟨"s", .Predetermined 2, .Predetermined 2, []⟩ 0
        (show strictly_ascending [⟨[], 1, 1⟩] from List.chain'_singleton _)).1⟩

end NotRedis
